import Mathlib

/-!
Shallow embedding of the `listings` app of the `alx_travel_app_0x00`
repository: the Django data model (`listings/models.py`) and the DRF
serializer write paths (`listings/serializers.py`).

Conventions of the embedding:
* fixed-point decimal columns (`DecimalField(10, 2)`) are modelled as `ℚ`;
* `datetime.date` values are modelled by their proleptic Gregorian ordinal
  (an `Int`), so that Python's `(end_date - start_date).days` is plain
  integer subtraction; `toOrdinal` below reproduces `date.toordinal()`;
* the relational store is a record of lists; persistence prepends (the
  models order newest first); foreign keys are stored by primary key;
* serializer/database failures are surfaced as `Except.error` paired with
  the untouched store, mirroring an exception raised before `.save()`.
-/

namespace AlxTravel

/-- Minimal projection of Django's user model (`SimpleUserSerializer`
exposes id, first name, last name, email). -/
structure User where
  user_id : Nat
  first_name : String
  last_name : String
  email : String
deriving DecidableEq, Repr

/-- The `Listing` model: host FK, name, description, location,
`pricepernight = DecimalField(max_digits=10, decimal_places=2)`. -/
structure Listing where
  listing_id : Nat
  host : Nat
  name : String
  description : String
  location : String
  pricepernight : ℚ
deriving DecidableEq, Repr

/-- Status choices, `BOOKING_STATUS_CHOICES = [pending, confirmed, canceled]`. -/
inductive BookingStatus where
  | pending
  | confirmed
  | canceled
deriving DecidableEq, Repr

/-- The `Booking` model: listing FK, user FK, start/end dates, derived
`total_price`, status (default pending). -/
structure Booking where
  booking_id : Nat
  listing : Nat
  user : Nat
  start_date : Int
  end_date : Int
  total_price : ℚ
  status : BookingStatus
deriving DecidableEq, Repr

/-- The `Review` model: listing FK, user FK, integer rating, comment. -/
structure Review where
  review_id : Nat
  listing : Nat
  user : Nat
  rating : Int
  comment : String
deriving DecidableEq, Repr

/-- The relational store backing the app: users (external model),
listings, bookings, reviews. -/
structure Store where
  users : List User
  listings : List Listing
  bookings : List Booking
  reviews : List Review
deriving DecidableEq, Repr

/-! ### Date ordinals (Python `datetime.date.toordinal`) -/

/-- Gregorian leap-year rule, as in Python's `calendar.isleap`. -/
def isLeapYear (y : Nat) : Bool :=
  (y % 4 == 0 && y % 100 != 0) || y % 400 == 0

/-- Month lengths of a non-leap year. -/
def DAYS_IN_MONTH : List Nat := [31, 28, 31, 30, 31, 30, 31, 31, 30, 31, 30, 31]

/-- Days in the years strictly before year `y` (Python `_days_before_year`). -/
def days_before_year (y : Nat) : Nat :=
  (y - 1) * 365 + (y - 1) / 4 - (y - 1) / 100 + (y - 1) / 400

/-- Days in year `y` strictly before month `m` (Python `_days_before_month`). -/
def days_before_month (y m : Nat) : Nat :=
  (DAYS_IN_MONTH.take (m - 1)).sum + (if 2 < m && isLeapYear y then 1 else 0)

/-- Proleptic Gregorian ordinal of a date, `date(y, m, d).toordinal()`:
day 1 is 0001-01-01. -/
def toOrdinal (y m d : Nat) : Int :=
  (days_before_year y + days_before_month y m + d : Nat)

/-! ### Primary-key resolution (`PrimaryKeyRelatedField` querysets) -/

/-- Resolve a user id against the store (`User.objects.all()`). -/
def findUser (s : Store) (uid : Nat) : Option User :=
  s.users.find? (fun u => u.user_id == uid)

/-- Resolve a listing id against the store (`Listing.objects.all()`). -/
def findListing (s : Store) (lid : Nat) : Option Listing :=
  s.listings.find? (fun l => l.listing_id == lid)

/-- Look up a booking by primary key. -/
def findBooking (s : Store) (bid : Nat) : Option Booking :=
  s.bookings.find? (fun b => b.booking_id == bid)

/-! ### Booking write path (`BookingSerializer`) -/

/-- The client-controlled fields of a booking write request.
`total_price` is carried to model a client trying to supply it: the field
is in `read_only_fields`, so the serializer drops it before validation. -/
structure BookingCreateInput where
  listing_id : Nat
  user_id : Nat
  start_date : Int
  end_date : Int
  total_price : Option ℚ
  status : Option BookingStatus
deriving DecidableEq, Repr

/-- Validation hook `BookingSerializer.validate`: reject when
`data['start_date'] > data['end_date']`. -/
def bookingValidate (start_date end_date : Int) : Except String Unit :=
  if start_date > end_date then
    Except.error "End date must be after start date."
  else
    Except.ok ()

/-- The `BookingSerializer` write pipeline for creation: resolve the two
foreign keys, run `validate`, then `create` (night count check, price
derivation, persist with status defaulting to pending).  Failures return
the store unchanged, as the exception propagates before any save. -/
def bookingCreate (s : Store) (new_id : Nat) (inp : BookingCreateInput) :
    Except String Booking × Store :=
  match findListing s inp.listing_id with
  | none => (Except.error "Invalid pk: listing object does not exist.", s)
  | some listing =>
    match findUser s inp.user_id with
    | none => (Except.error "Invalid pk: user object does not exist.", s)
    | some user =>
      match bookingValidate inp.start_date inp.end_date with
      | Except.error e => (Except.error e, s)
      | Except.ok _ =>
        let num_nights : Int := inp.end_date - inp.start_date
        if num_nights ≤ 0 then
          (Except.error "Booking must be for at least one night.", s)
        else
          let b : Booking :=
            { booking_id := new_id
              listing := listing.listing_id
              user := user.user_id
              start_date := inp.start_date
              end_date := inp.end_date
              total_price := listing.pricepernight * (num_nights : ℚ)
              status := inp.status.getD BookingStatus.pending }
          (Except.ok b, { s with bookings := b :: s.bookings })

/-- The client-controlled fields of a booking update request; again
`total_price` is carried only to model a client trying to set it. -/
structure BookingUpdateInput where
  listing_id : Nat
  user_id : Nat
  start_date : Int
  end_date : Int
  total_price : Option ℚ
  status : BookingStatus
deriving DecidableEq, Repr

/-- The `BookingSerializer` update pipeline: resolve the instance and the two
foreign keys, run `validate`, then the inherited `ModelSerializer.update`,
which copies only the writable validated fields onto the instance —
`total_price` is read-only, so it keeps its stored value, and the
night-count check lives only in `create`, so it never runs here. -/
def bookingUpdate (s : Store) (bid : Nat) (inp : BookingUpdateInput) :
    Except String Booking × Store :=
  match findBooking s bid with
  | none => (Except.error "booking not found", s)
  | some b0 =>
    match findListing s inp.listing_id with
    | none => (Except.error "Invalid pk: listing object does not exist.", s)
    | some listing =>
      match findUser s inp.user_id with
      | none => (Except.error "Invalid pk: user object does not exist.", s)
      | some user =>
        match bookingValidate inp.start_date inp.end_date with
        | Except.error e => (Except.error e, s)
        | Except.ok _ =>
          let b' : Booking :=
            { b0 with
              listing := listing.listing_id
              user := user.user_id
              start_date := inp.start_date
              end_date := inp.end_date
              status := inp.status }
          (Except.ok b',
           { s with bookings := s.bookings.map (fun b => if b.booking_id == bid then b' else b) })

/-! ### Review write path (`ReviewSerializer` + model validators + DB
uniqueness constraint `unique_together = ('listing', 'user')`) -/

/-- The client-controlled fields of a review write request. -/
structure ReviewCreateInput where
  listing_id : Nat
  user_id : Nat
  rating : Int
  comment : String
deriving DecidableEq, Repr

/-- Validators `MinValueValidator(1), MaxValueValidator(5)` on `Review.rating`. -/
def ratingValid (r : Int) : Bool :=
  1 ≤ r && r ≤ 5

/-- Does the store already hold a review for this (listing, user) pair? -/
def reviewPairTaken (s : Store) (lid uid : Nat) : Bool :=
  s.reviews.any (fun r => r.listing == lid && r.user == uid)

/-- Review creation pipeline: resolve the two foreign keys, run the field
validators (rating range, before persistence), then attempt the insert,
which the database rejects on a `unique_together ('listing', 'user')`
violation.  Failures return the store unchanged. -/
def reviewCreate (s : Store) (new_id : Nat) (inp : ReviewCreateInput) :
    Except String Review × Store :=
  match findListing s inp.listing_id with
  | none => (Except.error "Invalid pk: listing object does not exist.", s)
  | some listing =>
    match findUser s inp.user_id with
    | none => (Except.error "Invalid pk: user object does not exist.", s)
    | some user =>
      if !ratingValid inp.rating then
        (Except.error "rating must be between 1 and 5", s)
      else if reviewPairTaken s inp.listing_id inp.user_id then
        (Except.error "unique constraint violated: one review per listing and user", s)
      else
        let r : Review :=
          { review_id := new_id
            listing := listing.listing_id
            user := user.user_id
            rating := inp.rating
            comment := inp.comment }
        (Except.ok r, { s with reviews := r :: s.reviews })

/-! ### Cascade deletes (`on_delete=models.CASCADE` on every FK) -/

/-- Delete a listing: its bookings and reviews cascade
(`Booking.listing` and `Review.listing` are `CASCADE`). -/
def deleteListing (s : Store) (lid : Nat) : Store :=
  { s with
    listings := s.listings.filter (fun l => !(l.listing_id == lid))
    bookings := s.bookings.filter (fun b => !(b.listing == lid))
    reviews := s.reviews.filter (fun r => !(r.listing == lid)) }

/-- Delete a user: listings they host cascade (`Listing.host`), bookings
and reviews cascade both directly (`Booking.user`, `Review.user`) and
through each deleted listing. -/
def deleteUser (s : Store) (uid : Nat) : Store :=
  let deadListings := (s.listings.filter (fun l => l.host == uid)).map (fun l => l.listing_id)
  { s with
    users := s.users.filter (fun u => !(u.user_id == uid))
    listings := s.listings.filter (fun l => !(l.host == uid))
    bookings := s.bookings.filter
      (fun b => !(b.user == uid) && !(deadListings.contains b.listing))
    reviews := s.reviews.filter
      (fun r => !(r.user == uid) && !(deadListings.contains r.listing)) }

/-- Referential integrity: every foreign key resolves to an existing row. -/
def Consistent (s : Store) : Prop :=
  (∀ l ∈ s.listings, ∃ u ∈ s.users, u.user_id = l.host) ∧
  (∀ b ∈ s.bookings,
    (∃ l ∈ s.listings, l.listing_id = b.listing) ∧ (∃ u ∈ s.users, u.user_id = b.user)) ∧
  (∀ r ∈ s.reviews,
    (∃ l ∈ s.listings, l.listing_id = r.listing) ∧ (∃ u ∈ s.users, u.user_id = r.user))

instance (s : Store) : Decidable (Consistent s) := by
  unfold Consistent; infer_instance

/-- At most one review per (listing, user) pair — the
`unique_together` invariant. -/
def ReviewsUnique (s : Store) : Prop :=
  s.reviews.Pairwise (fun a b => ¬(a.listing = b.listing ∧ a.user = b.user))

/-! ### Listing average rating (`ListingSerializer.get_average_rating`) -/

/-- Python banker's rounding to an integer (`round` rounds ties to the
nearest even integer). -/
def roundHalfEven (q : ℚ) : ℤ :=
  if q - Int.floor q < 1 / 2 then Int.floor q
  else if q - Int.floor q > 1 / 2 then Int.floor q + 1
  else if Int.floor q % 2 = 0 then Int.floor q else Int.floor q + 1

/-- Python `round(x, 2)`. -/
def round2 (q : ℚ) : ℚ :=
  (roundHalfEven (q * 100) : ℚ) / 100

/-- The reviews of a listing (`obj.reviews.all()` via the related name). -/
def listingReviews (s : Store) (lid : Nat) : List Review :=
  s.reviews.filter (fun r => r.listing == lid)

/-- Method `ListingSerializer.get_average_rating`: `None` when the listing has no
reviews, else `round(sum(ratings) / count, 2)`. -/
def get_average_rating (s : Store) (lid : Nat) : Option ℚ :=
  let reviews := listingReviews s lid
  if !reviews.isEmpty then
    some (round2 (((reviews.map (fun r => (r.rating : ℚ))).sum) / (reviews.length : ℚ)))
  else
    none

/-- Spec-side notion: the arithmetic mean of a list of rationals. -/
def arithMean (xs : List ℚ) : ℚ :=
  xs.sum / (xs.length : ℚ)

/-- Did the operation raise (an exception before any save)? -/
def errored {α : Type} : Except String α → Bool
  | Except.error _ => true
  | Except.ok _ => false

/-! ### Concrete fixtures used to instantiate the theorems -/

def wHost : User := ⟨1, "Ada", "Love", "ada@example.com"⟩

def wGuest : User := ⟨2, "Bob", "Ray", "bob@example.com"⟩

def wListing : Listing := ⟨10, 1, "Villa", "A villa", "Accra", 100⟩

def wStore : Store := ⟨[wHost, wGuest], [wListing], [], []⟩

def wBookInput : BookingCreateInput :=
  ⟨10, 2, toOrdinal 2024 1 1, toOrdinal 2024 1 4, none, none⟩

def wBooking : Booking :=
  ⟨100, 10, 2, toOrdinal 2024 1 1, toOrdinal 2024 1 4, 300, BookingStatus.pending⟩

def wStoreAfter : Store := { wStore with bookings := [wBooking] }

def wReview1 : Review := ⟨50, 10, 1, 4, "nice"⟩

def wStoreR : Store := { wStore with reviews := [wReview1] }

def wDupInput : ReviewCreateInput := ⟨10, 1, 3, "again"⟩

def wOtherInput : ReviewCreateInput := ⟨10, 2, 5, "great"⟩

def wBadRatingInput : ReviewCreateInput := ⟨10, 2, 0, "zero"⟩

def wExistingBooking : Booking :=
  ⟨100, 10, 1, toOrdinal 2024 1 1, toOrdinal 2024 1 10, 900, BookingStatus.confirmed⟩

def wStoreB : Store := { wStore with bookings := [wExistingBooking] }

def wUpdateInput : BookingUpdateInput :=
  ⟨10, 2, toOrdinal 2024 2 1, toOrdinal 2024 2 1, some 77, BookingStatus.confirmed⟩

def wBadDateInput : BookingCreateInput :=
  ⟨10, 2, toOrdinal 2024 1 4, toOrdinal 2024 1 1, none, none⟩

def wSameDayInput : BookingCreateInput :=
  ⟨10, 2, toOrdinal 2024 1 1, toOrdinal 2024 1 1, none, none⟩

def wOverlapInput2 : BookingCreateInput :=
  ⟨10, 2, toOrdinal 2024 1 5, toOrdinal 2024 1 8, none, none⟩

/-- The record `BookingSerializer.create` builds once validation passes. -/
def mkBooking (new_id : Nat) (l : Listing) (u : User) (inp : BookingCreateInput) : Booking :=
  { booking_id := new_id
    listing := l.listing_id
    user := u.user_id
    start_date := inp.start_date
    end_date := inp.end_date
    total_price := l.pricepernight * ((inp.end_date - inp.start_date : Int) : ℚ)
    status := inp.status.getD BookingStatus.pending }

/-- The record the review write path persists once all checks pass. -/
def mkReview (new_id : Nat) (l : Listing) (u : User) (inp : ReviewCreateInput) : Review :=
  { review_id := new_id
    listing := l.listing_id
    user := u.user_id
    rating := inp.rating
    comment := inp.comment }

def wReview2 : Review := ⟨51, 10, 2, 5, "great"⟩

def wStoreR2 : Store := { wStore with reviews := [wReview1, wReview2] }

def wLowOkInput : ReviewCreateInput := ⟨10, 2, 1, "one"⟩

def wHighBadInput : ReviewCreateInput := ⟨10, 2, 6, "six"⟩

def wBigStore : Store := ⟨[wHost, wGuest], [wListing], [wExistingBooking], [wReview1, wReview2]⟩

/-! ### Helper lemmas -/

/-- Unfolded form of `bookingCreate` once both foreign keys resolve. -/
theorem bookingCreate_resolved (s : Store) (new_id : Nat) (inp : BookingCreateInput)
    (l : Listing) (hl : findListing s inp.listing_id = some l)
    (u : User) (hu : findUser s inp.user_id = some u) :
    bookingCreate s new_id inp =
      if inp.start_date > inp.end_date then
        (Except.error "End date must be after start date.", s)
      else if inp.end_date - inp.start_date ≤ 0 then
        (Except.error "Booking must be for at least one night.", s)
      else
        (Except.ok (mkBooking new_id l u inp),
         { s with bookings := mkBooking new_id l u inp :: s.bookings }) := by
  unfold bookingCreate bookingValidate mkBooking
  rw [hl, hu]
  by_cases hgt : inp.start_date > inp.end_date
  · simp [hgt]
  · simp [hgt]

/-- C1: every booking persisted through the write path has
`total_price = pricepernight × nights` exactly, with `nights > 0`. -/
theorem booking_total_price_exact (s : Store) (new_id : Nat) (inp : BookingCreateInput)
    (l : Listing) (hl : findListing s inp.listing_id = some l)
    (b : Booking) (s' : Store)
    (hok : bookingCreate s new_id inp = (Except.ok b, s')) :
    0 < inp.end_date - inp.start_date ∧
    b.total_price = l.pricepernight * ((inp.end_date - inp.start_date : Int) : ℚ) := by
  unfold bookingCreate bookingValidate at hok
  rw [hl] at hok
  cases hu : findUser s inp.user_id with
  | none => rw [hu] at hok; simp at hok
  | some u =>
    rw [hu] at hok
    by_cases hgt : inp.start_date > inp.end_date
    · simp [hgt] at hok
    · simp only [hgt, if_false, if_neg] at hok
      by_cases hn : inp.end_date - inp.start_date ≤ 0
      · simp [hgt, hn] at hok
      · simp [hgt, hn] at hok
        refine ⟨by omega, ?_⟩
        rw [← hok.1, Int.cast_sub]

/-- Witness for C1 at the spec's example: price 100.00/night,
2024-01-01 → 2024-01-04, 3 nights, total 300.00. -/
theorem booking_total_price_exact_witness :
    (0 < wBookInput.end_date - wBookInput.start_date ∧
      wBooking.total_price =
        wListing.pricepernight * ((wBookInput.end_date - wBookInput.start_date : Int) : ℚ)) ∧
    wBooking.total_price = 300 ∧ wBooking.status = BookingStatus.pending :=
  ⟨booking_total_price_exact wStore 100 wBookInput wListing rfl wBooking wStoreAfter
      (by rw [bookingCreate_resolved wStore 100 wBookInput wListing rfl wGuest rfl]
          norm_num [mkBooking, wBookInput, wBooking, wStoreAfter, wStore, wListing, wGuest,
            toOrdinal, days_before_year, days_before_month, DAYS_IN_MONTH, isLeapYear]),
   by norm_num [wBooking], by decide⟩

/-- C2: any booking creation with `end_date ≤ start_date` raises and leaves
the store untouched. -/
theorem booking_nonpositive_span_rejected (s : Store) (new_id : Nat)
    (inp : BookingCreateInput) (h : inp.end_date ≤ inp.start_date) :
    errored (bookingCreate s new_id inp).1 = true ∧ (bookingCreate s new_id inp).2 = s := by
  unfold bookingCreate bookingValidate
  cases hfl : findListing s inp.listing_id with
  | none => exact ⟨rfl, rfl⟩
  | some l =>
    cases hfu : findUser s inp.user_id with
    | none => exact ⟨rfl, rfl⟩
    | some u =>
      by_cases hgt : inp.start_date > inp.end_date
      · simp [hgt, errored]
      · have hn : inp.end_date - inp.start_date ≤ 0 := by omega
        simp [hgt, hn, errored]

/-- Witness for C2: end 2024-01-01 before start 2024-01-04. -/
theorem booking_nonpositive_span_rejected_witness :
    errored (bookingCreate wStore 101 wBadDateInput).1 = true ∧
    (bookingCreate wStore 101 wBadDateInput).2 = wStore :=
  booking_nonpositive_span_rejected wStore 101 wBadDateInput (by decide)

/-- C3: with `end_date = start_date` the date-order check in `validate`
passes (it is non-strict), and `create` then raises the
"at least one night" error with the store untouched. -/
theorem booking_same_day_caught_downstream (s : Store) (new_id : Nat)
    (inp : BookingCreateInput)
    (l : Listing) (hl : findListing s inp.listing_id = some l)
    (u : User) (hu : findUser s inp.user_id = some u)
    (heq : inp.end_date = inp.start_date) :
    bookingValidate inp.start_date inp.end_date = Except.ok () ∧
    (bookingCreate s new_id inp).1 = Except.error "Booking must be for at least one night." ∧
    (bookingCreate s new_id inp).2 = s := by
  have hgt : ¬ inp.start_date > inp.end_date := by omega
  have hn : inp.end_date - inp.start_date ≤ 0 := by omega
  refine ⟨by unfold bookingValidate; rw [if_neg hgt], ?_, ?_⟩ <;>
    rw [bookingCreate_resolved s new_id inp l hl u hu] <;> simp [hgt, hn]

/-- Witness for C3 at start = end = 2024-01-01. -/
theorem booking_same_day_caught_downstream_witness :
    bookingValidate wSameDayInput.start_date wSameDayInput.end_date = Except.ok () ∧
    (bookingCreate wStore 101 wSameDayInput).1 =
      Except.error "Booking must be for at least one night." ∧
    (bookingCreate wStore 101 wSameDayInput).2 = wStore :=
  booking_same_day_caught_downstream wStore 101 wSameDayInput wListing rfl wGuest rfl rfl

/-- C8: the client-supplied `total_price` field is read-only: two creation
requests differing only in it produce identical results. -/
theorem booking_client_total_price_ignored (s : Store) (new_id : Nat)
    (inp : BookingCreateInput) (tp : Option ℚ) :
    bookingCreate s new_id { inp with total_price := tp } = bookingCreate s new_id inp := by
  cases inp
  rfl

/-- C9: an overlapping request on an already-booked listing still succeeds:
no availability or uniqueness check guards the write path. -/
theorem booking_no_overlap_guard (s : Store) (new_id : Nat) (inp : BookingCreateInput)
    (b0 : Booking) (_hb0 : b0 ∈ s.bookings) (_hsame : b0.listing = inp.listing_id)
    (l : Listing) (hl : findListing s inp.listing_id = some l)
    (u : User) (hu : findUser s inp.user_id = some u)
    (hdates : inp.start_date < inp.end_date)
    (_hoverlap : inp.start_date < b0.end_date ∧ b0.start_date < inp.end_date) :
    bookingCreate s new_id inp =
      (Except.ok (mkBooking new_id l u inp),
       { s with bookings := mkBooking new_id l u inp :: s.bookings }) := by
  rw [bookingCreate_resolved s new_id inp l hl u hu]
  have hgt : ¬ inp.start_date > inp.end_date := by omega
  have hn : ¬ inp.end_date - inp.start_date ≤ 0 := by omega
  simp [hgt, hn]

/-- Witness for C9: listing 10 is booked 2024-01-01 → 2024-01-10 and a
second request for 2024-01-05 → 2024-01-08 goes through. -/
theorem booking_no_overlap_guard_witness :
    (bookingCreate wStoreB 101 wOverlapInput2 =
      (Except.ok (mkBooking 101 wListing wGuest wOverlapInput2),
       { wStoreB with bookings := mkBooking 101 wListing wGuest wOverlapInput2 ::
           wStoreB.bookings })) ∧
    (mkBooking 101 wListing wGuest wOverlapInput2).total_price = 300 :=
  ⟨booking_no_overlap_guard wStoreB 101 wOverlapInput2 wExistingBooking (by decide)
      (by decide) wListing rfl wGuest rfl (by decide) ⟨by decide, by decide⟩,
   by norm_num [mkBooking, wListing, wGuest, wOverlapInput2, toOrdinal,
     days_before_year, days_before_month, DAYS_IN_MONTH, isLeapYear]⟩

/-- C10: updating a booking never runs the night-count check and never
recomputes `total_price`: with `start ≤ end` the update succeeds and the
stored price is kept. -/
theorem booking_update_keeps_total_price (s : Store) (bid : Nat) (inp : BookingUpdateInput)
    (b0 : Booking) (hb : findBooking s bid = some b0)
    (l : Listing) (hl : findListing s inp.listing_id = some l)
    (u : User) (hu : findUser s inp.user_id = some u)
    (hd : inp.start_date ≤ inp.end_date) :
    (bookingUpdate s bid inp).1 =
      Except.ok { b0 with
        listing := l.listing_id
        user := u.user_id
        start_date := inp.start_date
        end_date := inp.end_date
        status := inp.status } ∧
    (∀ b, (bookingUpdate s bid inp).1 = Except.ok b → b.total_price = b0.total_price) := by
  have hgt : ¬ inp.start_date > inp.end_date := by omega
  have h1 : (bookingUpdate s bid inp).1 =
      Except.ok { b0 with
        listing := l.listing_id
        user := u.user_id
        start_date := inp.start_date
        end_date := inp.end_date
        status := inp.status } := by
    unfold bookingUpdate bookingValidate
    rw [hb, hl, hu]
    simp [hgt]
  refine ⟨h1, fun b hb2 => ?_⟩
  rw [h1] at hb2
  cases hb2
  rfl

/-- Witness for C10: a full update moving the booking to a zero-night span
(2024-02-01 → 2024-02-01) with a client-supplied price of 77 still
succeeds and keeps the stored 900.00. -/
theorem booking_update_keeps_total_price_witness :
    ((bookingUpdate wStoreB 100 wUpdateInput).1 =
      Except.ok { wExistingBooking with
        listing := 10
        user := 2
        start_date := toOrdinal 2024 2 1
        end_date := toOrdinal 2024 2 1
        status := BookingStatus.confirmed } ∧
     (∀ b, (bookingUpdate wStoreB 100 wUpdateInput).1 = Except.ok b →
        b.total_price = wExistingBooking.total_price)) ∧
    wExistingBooking.total_price = 900 :=
  ⟨booking_update_keeps_total_price wStoreB 100 wUpdateInput wExistingBooking rfl
      wListing rfl wGuest rfl (by decide),
   by norm_num [wExistingBooking]⟩

/-- Unfolded form of `reviewCreate` once both foreign keys resolve. -/
theorem reviewCreate_resolved (s : Store) (new_id : Nat) (inp : ReviewCreateInput)
    (l : Listing) (hl : findListing s inp.listing_id = some l)
    (u : User) (hu : findUser s inp.user_id = some u) :
    reviewCreate s new_id inp =
      if ratingValid inp.rating = false then
        (Except.error "rating must be between 1 and 5", s)
      else if reviewPairTaken s inp.listing_id inp.user_id = true then
        (Except.error "unique constraint violated: one review per listing and user", s)
      else
        (Except.ok (mkReview new_id l u inp),
         { s with reviews := mkReview new_id l u inp :: s.reviews }) := by
  unfold reviewCreate mkReview
  rw [hl, hu]
  by_cases hr : ratingValid inp.rating
  · by_cases hp : reviewPairTaken s inp.listing_id inp.user_id
    · simp [hr, hp]
    · simp [hr, hp]
  · simp [hr]

/-- C4: a listing's serialized average rating is absent exactly when the
listing has no reviews (never 0), and otherwise it is the arithmetic mean
of the ratings rounded to 2 decimal places. -/
theorem listing_average_rating_spec (s : Store) (lid : Nat) :
    get_average_rating s lid =
      (if listingReviews s lid = [] then none
       else some (round2 (arithMean ((listingReviews s lid).map (fun r => (r.rating : ℚ)))))) ∧
    (listingReviews s lid = [] → get_average_rating s lid ≠ some 0) := by
  have h1 : get_average_rating s lid =
      (if listingReviews s lid = [] then none
       else some (round2 (arithMean ((listingReviews s lid).map (fun r => (r.rating : ℚ)))))) := by
    unfold get_average_rating arithMean
    by_cases h : listingReviews s lid = []
    · simp [h]
    · rw [if_neg h]
      have hne : (listingReviews s lid).isEmpty = false := by
        rcases hl : listingReviews s lid with _ | ⟨a, as⟩
        · exact absurd hl h
        · rfl
      simp [hne, List.length_map]
  refine ⟨h1, fun h => ?_⟩
  rw [h1, if_pos h]
  exact fun hcon => Option.noConfusion hcon

/-- Witness for C4: no reviews gives `none`; ratings 4 and 5 give 4.50. -/
theorem listing_average_rating_spec_witness :
    get_average_rating wStore 10 = none ∧
    get_average_rating wStoreR2 10 = some (9 / 2) := by
  constructor
  · have h := (listing_average_rating_spec wStore 10).1
    simpa [listingReviews, wStore] using h
  · have h := (listing_average_rating_spec wStoreR2 10).1
    rw [h]
    have hrv : listingReviews wStoreR2 10 = [wReview1, wReview2] := rfl
    rw [hrv, if_neg (by simp)]
    norm_num [wReview1, wReview2, round2, roundHalfEven, arithMean]

/-- C5: a second review for the same (listing, user) pair is rejected by
the uniqueness constraint with the store unchanged, an untaken pair (for
instance a different user on the same listing) succeeds, and the
at-most-one-review-per-pair invariant is preserved by the write path. -/
theorem review_unique_per_pair (s : Store) (new_id : Nat) (inp : ReviewCreateInput)
    (l : Listing) (hl : findListing s inp.listing_id = some l)
    (u : User) (hu : findUser s inp.user_id = some u)
    (hr : ratingValid inp.rating = true) :
    (reviewPairTaken s inp.listing_id inp.user_id = true →
      reviewCreate s new_id inp =
        (Except.error "unique constraint violated: one review per listing and user", s)) ∧
    (reviewPairTaken s inp.listing_id inp.user_id = false →
      (reviewCreate s new_id inp).1 = Except.ok (mkReview new_id l u inp)) ∧
    (ReviewsUnique s → ReviewsUnique (reviewCreate s new_id inp).2) := by
  have heq := reviewCreate_resolved s new_id inp l hl u hu
  have hlid : l.listing_id = inp.listing_id := by
    have := List.find?_some hl
    simpa using this
  have huid : u.user_id = inp.user_id := by
    have := List.find?_some hu
    simpa using this
  refine ⟨fun hp => ?_, fun hp => ?_, fun hrev => ?_⟩
  · rw [heq]
    simp [hr, hp]
  · rw [heq]
    simp [hr, hp]
  · rw [heq]
    by_cases hp : reviewPairTaken s inp.listing_id inp.user_id
    · simp [hr, hp]
      exact hrev
    · simp [hr, hp]
      unfold ReviewsUnique at hrev ⊢
      simp only [List.pairwise_cons]
      refine ⟨fun b hb hcon => ?_, hrev⟩
      have hnp : ∀ r ∈ s.reviews, ¬(r.listing = inp.listing_id ∧ r.user = inp.user_id) := by
        intro r hrm hcon2
        apply hp
        unfold reviewPairTaken
        rw [List.any_eq_true]
        exact ⟨r, hrm, by simp [hcon2.1, hcon2.2]⟩
      exact hnp b hb ⟨by rw [← hcon.1]; simpa [mkReview] using hlid,
                      by rw [← hcon.2]; simpa [mkReview] using huid⟩

/-- Witness for C5: user 1 already reviewed listing 10, so their second
review fails and changes nothing, while user 2's review succeeds. -/
theorem review_unique_per_pair_witness :
    reviewCreate wStoreR 52 wDupInput =
      (Except.error "unique constraint violated: one review per listing and user", wStoreR) ∧
    (reviewCreate wStoreR 53 wOtherInput).1 = Except.ok (mkReview 53 wListing wGuest wOtherInput) :=
  ⟨(review_unique_per_pair wStoreR 52 wDupInput wListing rfl wHost rfl rfl).1 rfl,
   (review_unique_per_pair wStoreR 53 wOtherInput wListing rfl wGuest rfl rfl).2.1 rfl⟩

/-- C6: with both foreign keys valid and the pair untaken, review creation
fails with the range error exactly when the rating is outside 1–5 (the
failure touching nothing), and succeeds for ratings inside 1–5. -/
theorem review_rating_range (s : Store) (new_id : Nat) (inp : ReviewCreateInput)
    (l : Listing) (hl : findListing s inp.listing_id = some l)
    (u : User) (hu : findUser s inp.user_id = some u)
    (hnodup : reviewPairTaken s inp.listing_id inp.user_id = false) :
    ((reviewCreate s new_id inp).1 = Except.error "rating must be between 1 and 5" ↔
      (inp.rating < 1 ∨ 5 < inp.rating)) ∧
    ((inp.rating < 1 ∨ 5 < inp.rating) → (reviewCreate s new_id inp).2 = s) ∧
    (1 ≤ inp.rating → inp.rating ≤ 5 →
      (reviewCreate s new_id inp).1 = Except.ok (mkReview new_id l u inp)) := by
  have heq := reviewCreate_resolved s new_id inp l hl u hu
  by_cases hr : ratingValid inp.rating
  · have hrange : 1 ≤ inp.rating ∧ inp.rating ≤ 5 := by
      unfold ratingValid at hr
      constructor <;> [exact of_decide_eq_true (Bool.and_elim_left hr);
        exact of_decide_eq_true (Bool.and_elim_right hr)]
    refine ⟨?_, fun hout => ?_, fun _ _ => ?_⟩
    · rw [heq]
      simp [hr, hnodup]
      omega
    · omega
    · rw [heq]
      simp [hr, hnodup]
  · have hrange : inp.rating < 1 ∨ 5 < inp.rating := by
      unfold ratingValid at hr
      rcases Int.lt_or_le inp.rating 1 with h | h
      · exact Or.inl h
      · refine Or.inr ?_
        by_contra hcon
        exact hr (by simp [h, Int.not_lt.mp hcon])
    refine ⟨?_, fun _ => ?_, fun h1 h5 => ?_⟩
    · rw [heq]
      simp [hr, hrange]
    · rw [heq]
      simp [hr]
    · omega

/-- Witness for C6: ratings 0 and 6 fail (store untouched), 1 and 5
succeed. -/
theorem review_rating_range_witness :
    (reviewCreate wStore 52 wBadRatingInput).1 = Except.error "rating must be between 1 and 5" ∧
    (reviewCreate wStore 52 wBadRatingInput).2 = wStore ∧
    (reviewCreate wStore 55 wHighBadInput).1 = Except.error "rating must be between 1 and 5" ∧
    (reviewCreate wStore 54 wLowOkInput).1 = Except.ok (mkReview 54 wListing wGuest wLowOkInput) ∧
    (reviewCreate wStore 53 wOtherInput).1 = Except.ok (mkReview 53 wListing wGuest wOtherInput) :=
  ⟨(review_rating_range wStore 52 wBadRatingInput wListing rfl wGuest rfl rfl).1.mpr
      (Or.inl (by decide)),
   (review_rating_range wStore 52 wBadRatingInput wListing rfl wGuest rfl rfl).2.1
      (Or.inl (by decide)),
   (review_rating_range wStore 55 wHighBadInput wListing rfl wGuest rfl rfl).1.mpr
      (Or.inr (by decide)),
   (review_rating_range wStore 54 wLowOkInput wListing rfl wGuest rfl rfl).2.2
      (by decide) (by decide),
   (review_rating_range wStore 53 wOtherInput wListing rfl wGuest rfl rfl).2.2
      (by decide) (by decide)⟩

/-- Surviving bookings of `deleteUser` were present before, are not by the
deleted user, and are not on any listing the deleted user hosts. -/
theorem deleteUser_bookings_mem (s : Store) (uid : Nat) (b : Booking)
    (hb : b ∈ (deleteUser s uid).bookings) :
    b ∈ s.bookings ∧ b.user ≠ uid ∧
    ∀ l ∈ s.listings, l.host = uid → l.listing_id ≠ b.listing := by
  simp only [deleteUser, List.mem_filter, Bool.and_eq_true, Bool.not_eq_true',
    beq_eq_false_iff_ne] at hb
  obtain ⟨hmem, hbu, hbl⟩ := hb
  refine ⟨hmem, hbu, fun l hlm hlh hcon => ?_⟩
  have hin : b.listing ∈ (s.listings.filter (fun l => l.host == uid)).map
      (fun l => l.listing_id) :=
    List.mem_map.mpr ⟨l, List.mem_filter.mpr ⟨hlm, by simp [hlh]⟩, hcon⟩
  have htrue : ((s.listings.filter (fun l => l.host == uid)).map
      (fun l => l.listing_id)).contains b.listing = true := List.elem_iff.mpr hin
  rw [hbl] at htrue
  exact Bool.noConfusion htrue

/-- Surviving reviews of `deleteUser` were present before, are not by the
deleted user, and are not on any listing the deleted user hosts. -/
theorem deleteUser_reviews_mem (s : Store) (uid : Nat) (r : Review)
    (hr : r ∈ (deleteUser s uid).reviews) :
    r ∈ s.reviews ∧ r.user ≠ uid ∧
    ∀ l ∈ s.listings, l.host = uid → l.listing_id ≠ r.listing := by
  simp only [deleteUser, List.mem_filter, Bool.and_eq_true, Bool.not_eq_true',
    beq_eq_false_iff_ne] at hr
  obtain ⟨hmem, hru, hrl⟩ := hr
  refine ⟨hmem, hru, fun l hlm hlh hcon => ?_⟩
  have hin : r.listing ∈ (s.listings.filter (fun l => l.host == uid)).map
      (fun l => l.listing_id) :=
    List.mem_map.mpr ⟨l, List.mem_filter.mpr ⟨hlm, by simp [hlh]⟩, hcon⟩
  have htrue : ((s.listings.filter (fun l => l.host == uid)).map
      (fun l => l.listing_id)).contains r.listing = true := List.elem_iff.mpr hin
  rw [hrl] at htrue
  exact Bool.noConfusion htrue

/-- Deleting a listing preserves referential integrity. -/
theorem deleteListing_consistent (s : Store) (lid : Nat) (hc : Consistent s) :
    Consistent (deleteListing s lid) := by
  obtain ⟨hL, hB, hR⟩ := hc
  refine ⟨fun l hl => ?_, fun b hb => ?_, fun r hr => ?_⟩
  · simp only [deleteListing, List.mem_filter] at hl ⊢
    exact hL l hl.1
  · simp only [deleteListing, List.mem_filter, Bool.not_eq_true',
      beq_eq_false_iff_ne] at hb ⊢
    obtain ⟨hmem, hne⟩ := hb
    obtain ⟨⟨l0, hl0, hl0e⟩, hu⟩ := hB b hmem
    exact ⟨⟨l0, ⟨hl0, by rw [hl0e]; exact hne⟩, hl0e⟩, hu⟩
  · simp only [deleteListing, List.mem_filter, Bool.not_eq_true',
      beq_eq_false_iff_ne] at hr ⊢
    obtain ⟨hmem, hne⟩ := hr
    obtain ⟨⟨l0, hl0, hl0e⟩, hu⟩ := hR r hmem
    exact ⟨⟨l0, ⟨hl0, by rw [hl0e]; exact hne⟩, hl0e⟩, hu⟩

/-- Deleting a user preserves referential integrity. -/
theorem deleteUser_consistent (s : Store) (uid : Nat) (hc : Consistent s) :
    Consistent (deleteUser s uid) := by
  obtain ⟨hL, hB, hR⟩ := hc
  refine ⟨fun l hl => ?_, fun b hb => ?_, fun r hr => ?_⟩
  · have hl' : l ∈ s.listings ∧ l.host ≠ uid := by
      simpa only [deleteUser, List.mem_filter, Bool.not_eq_true',
        beq_eq_false_iff_ne] using hl
    obtain ⟨u0, hu0, hu0e⟩ := hL l hl'.1
    refine ⟨u0, ?_, hu0e⟩
    simp only [deleteUser, List.mem_filter, Bool.not_eq_true', beq_eq_false_iff_ne]
    exact ⟨hu0, by rw [hu0e]; exact hl'.2⟩
  · obtain ⟨hmem, hbu, hbl⟩ := deleteUser_bookings_mem s uid b hb
    obtain ⟨⟨l0, hl0, hl0e⟩, ⟨u0, hu0, hu0e⟩⟩ := hB b hmem
    constructor
    · refine ⟨l0, ?_, hl0e⟩
      simp only [deleteUser, List.mem_filter, Bool.not_eq_true', beq_eq_false_iff_ne]
      exact ⟨hl0, fun hcon => hbl l0 hl0 hcon hl0e⟩
    · refine ⟨u0, ?_, hu0e⟩
      simp only [deleteUser, List.mem_filter, Bool.not_eq_true', beq_eq_false_iff_ne]
      exact ⟨hu0, by rw [hu0e]; exact hbu⟩
  · obtain ⟨hmem, hru, hrl⟩ := deleteUser_reviews_mem s uid r hr
    obtain ⟨⟨l0, hl0, hl0e⟩, ⟨u0, hu0, hu0e⟩⟩ := hR r hmem
    constructor
    · refine ⟨l0, ?_, hl0e⟩
      simp only [deleteUser, List.mem_filter, Bool.not_eq_true', beq_eq_false_iff_ne]
      exact ⟨hl0, fun hcon => hrl l0 hl0 hcon hl0e⟩
    · refine ⟨u0, ?_, hu0e⟩
      simp only [deleteUser, List.mem_filter, Bool.not_eq_true', beq_eq_false_iff_ne]
      exact ⟨hu0, by rw [hu0e]; exact hru⟩

/-- C7: deleting a listing removes every booking and review on it; deleting
a user removes the listings they host and every booking/review they
authored or that sits on one of their listings; both deletes keep the
store referentially intact. -/
theorem delete_cascades (s : Store) (lid uid : Nat) (hc : Consistent s) :
    (∀ b ∈ (deleteListing s lid).bookings, b.listing ≠ lid) ∧
    (∀ r ∈ (deleteListing s lid).reviews, r.listing ≠ lid) ∧
    Consistent (deleteListing s lid) ∧
    (∀ l ∈ (deleteUser s uid).listings, l.host ≠ uid) ∧
    (∀ b ∈ (deleteUser s uid).bookings, b.user ≠ uid) ∧
    (∀ r ∈ (deleteUser s uid).reviews, r.user ≠ uid) ∧
    (∀ b ∈ (deleteUser s uid).bookings, ∀ l ∈ s.listings,
      l.listing_id = b.listing → l.host ≠ uid) ∧
    (∀ r ∈ (deleteUser s uid).reviews, ∀ l ∈ s.listings,
      l.listing_id = r.listing → l.host ≠ uid) ∧
    Consistent (deleteUser s uid) := by
  refine ⟨fun b hb => ?_, fun r hr => ?_, deleteListing_consistent s lid hc,
    fun l hl => ?_, fun b hb => ?_, fun r hr => ?_, fun b hb l hlm hle => ?_,
    fun r hr l hlm hle => ?_, deleteUser_consistent s uid hc⟩
  · exact (by simpa only [deleteListing, List.mem_filter, Bool.not_eq_true',
      beq_eq_false_iff_ne] using hb : _ ∧ _).2
  · exact (by simpa only [deleteListing, List.mem_filter, Bool.not_eq_true',
      beq_eq_false_iff_ne] using hr : _ ∧ _).2
  · exact (by simpa only [deleteUser, List.mem_filter, Bool.not_eq_true',
      beq_eq_false_iff_ne] using hl : _ ∧ _).2
  · exact (deleteUser_bookings_mem s uid b hb).2.1
  · exact (deleteUser_reviews_mem s uid r hr).2.1
  · exact fun hcon => (deleteUser_bookings_mem s uid b hb).2.2 l hlm hcon hle
  · exact fun hcon => (deleteUser_reviews_mem s uid r hr).2.2 l hlm hcon hle

/-- Witness for C7 on a populated consistent store: deleting listing 10 or
user 1 leaves a referentially intact store. -/
theorem delete_cascades_witness :
    Consistent wBigStore ∧
    Consistent (deleteListing wBigStore 10) ∧
    Consistent (deleteUser wBigStore 1) := by
  have h := delete_cascades wBigStore 10 1 (by decide)
  exact ⟨by decide, h.2.2.1, h.2.2.2.2.2.2.2.2⟩

end AlxTravel
